import Mathlib

/-
Verification of the project-dash repository-state engine.

The Rust source (src/app.rs, src/repo.rs, src/github.rs) is shallowly
embedded below: the message-driven state machine `App.update`, the
selection-driven prefetch `maybe_fetch_selected_github`, the GitHub URL
parser `parse_github_url`, the directory scanner `scan_directory`, and the
issue-count correction of the GitHub fetcher.  Rust `&str` values handled
character-by-character are modelled as `List Char`; `PathBuf` keys and
display strings as `String`; `u16`/`usize`/`u64` as `Nat` (saturating
subtraction on unsigned integers coincides with truncated `Nat`
subtraction, and `u16::saturating_add` is capped explicitly); the
`HashSet<PathBuf>` in-flight set as a duplicate-free `List String`.
Side effects (spawned tasks, cache invalidation, opening URLs) are
returned as an explicit `Effect` list.
-/

namespace ProjectDash

/-- Model of `ratatui::layout::Rect` (u16 fields, as `Nat`). -/
structure Rect where
  x : Nat
  y : Nat
  width : Nat
  height : Nat
deriving DecidableEq

/-- Default `Rect` (all zero), as produced by `Rect::default()`. -/
def Rect.zero : Rect := ⟨0, 0, 0, 0⟩

/-- Model of `repo::RepoStatus` (src/repo.rs lines 18-26). -/
inductive RepoStatus where
  | Clean
  | Dirty (modified added deleted : Nat)
deriving DecidableEq

/-- Model of `repo::GitHubItem` (src/repo.rs lines 28-32). -/
structure GitHubItem where
  number : Nat
  title : String
deriving DecidableEq

/-- Model of `repo::GitHubData` (src/repo.rs lines 34-40). -/
structure GitHubData where
  open_issues : Nat
  open_prs : Nat
  recent_issues : List GitHubItem
  recent_prs : List GitHubItem
deriving DecidableEq

/-- Model of `repo::CommitInfo` (src/repo.rs lines 42-48). -/
structure CommitInfo where
  hash : String
  message : String
  author : String
  date : String
deriving DecidableEq

/-- Model of `repo::RepoInfo` (src/repo.rs lines 50-64). -/
structure RepoInfo where
  name : String
  path : String
  status : RepoStatus
  current_branch : String
  branches : List String
  remote_url : Option String
  github_repo : Option (String × String)
  github_data : Option GitHubData
  github_error : Option String
  recent_commits : List CommitInfo
  changed_files : List String
deriving DecidableEq

/-- Model of `app::ActivePane` (src/app.rs lines 11-15). -/
inductive ActivePane where
  | RepoList
  | Detail
deriving DecidableEq

/-- Model of `app::DetailTab` (src/app.rs lines 17-23). -/
inductive DetailTab where
  | Changes
  | Commits
  | Issues
  | Prs
deriving DecidableEq

/-- Model of `DetailTab::next` (src/app.rs lines 26-33). -/
def DetailTab.next : DetailTab → DetailTab
  | .Changes => .Commits
  | .Commits => .Issues
  | .Issues => .Prs
  | .Prs => .Changes

/-- Model of `DetailTab::prev` (src/app.rs lines 35-42). -/
def DetailTab.prev : DetailTab → DetailTab
  | .Changes => .Prs
  | .Commits => .Changes
  | .Issues => .Commits
  | .Prs => .Issues

/-- Model of `app::AppState` (src/app.rs lines 66-70). -/
inductive AppState where
  | Scanning
  | Ready
deriving DecidableEq

/-- Model of `app::Message` (src/app.rs lines 46-64). -/
inductive Message where
  | Quit
  | MoveUp
  | MoveDown
  | Refresh
  | ForceRefresh
  | RetryGitHub
  | ForceRetryGitHub
  | Tick
  | SwitchPane
  | FocusList
  | NextTab
  | PrevTab
  | Click (column row : Nat)
  | ReposScanned (repos : List RepoInfo)
  | GitHubDataReceived (path : String) (data : GitHubData)
  | GitHubError (path : String) (error : String)
deriving DecidableEq

/-- Observable side effects of a transition: tasks spawned and caches
touched by `App::update` / `maybe_fetch_selected_github`.  `SpawnFetch`
models `github::spawn_github_fetch` (src/github.rs lines 141-172),
`SpawnScan` the `tokio::spawn` of `repo::scan_directory`,
`InvalidateGithubCache` `github::invalidate_cached`, `InvalidateScanCache`
`repo::invalidate_all_repo_caches`, and `OpenUrl` `open::that`. -/
inductive Effect where
  | SpawnFetch (path owner name : String) (token : Option String)
  | SpawnScan (path : String)
  | InvalidateGithubCache (owner name : String)
  | InvalidateScanCache
  | OpenUrl (url : String)
deriving DecidableEq

/-- Model of `app::App` (src/app.rs lines 72-89).  `table_state` is kept
as its only observed content, the selected index; the `tx` channel handle
is dropped (sends are modelled as `Effect`s). -/
structure App where
  repos : List RepoInfo
  selected : Option Nat
  state : AppState
  scan_path : String
  github_token : Option String
  should_quit : Bool
  active_pane : ActivePane
  detail_tab : DetailTab
  detail_scroll : Nat
  list_area : Rect
  tab_bar_area : Rect
  detail_content_area : Rect
  click_zones : List (Rect × String)
  github_fetching : List String
deriving DecidableEq

/-- Model of `App::new` (src/app.rs lines 92-114). -/
def App.init (scan_path : String) (github_token : Option String) : App where
  repos := []
  selected := none
  state := .Scanning
  scan_path := scan_path
  github_token := github_token
  should_quit := false
  active_pane := .RepoList
  detail_tab := .Changes
  detail_scroll := 0
  list_area := Rect.zero
  tab_bar_area := Rect.zero
  detail_content_area := Rect.zero
  click_zones := []
  github_fetching := []

/-- Model of `App::selected_repo` (src/app.rs lines 116-120). -/
def selected_repo (a : App) : Option RepoInfo :=
  a.selected.bind (fun i => a.repos.get? i)

/-- Insertion into the `HashSet<PathBuf>` in-flight set, modelled on a
duplicate-free list. -/
def insertPath (p : String) (s : List String) : List String :=
  if s.contains p then s else p :: s

/-- Removal from the `HashSet<PathBuf>` in-flight set. -/
def removePath (p : String) (s : List String) : List String :=
  s.filter (fun q => !(q == p))

/-- Model of `App::maybe_fetch_selected_github` (src/app.rs lines
342-371). -/
def maybe_fetch_selected_github (a : App) : App × List Effect :=
  match selected_repo a with
  | none => (a, [])
  | some repo =>
    if repo.github_data.isSome || repo.github_error.isSome
        || a.github_fetching.contains repo.path then
      (a, [])
    else
      match repo.github_repo with
      | none => (a, [])
      | some (owner, nm) =>
        ({ a with github_fetching := insertPath repo.path a.github_fetching },
         [Effect.SpawnFetch repo.path owner nm a.github_token])

/-- The state mutation shared by the `RetryGitHub` and `ForceRetryGitHub`
arms of `App::update` (src/app.rs lines 251-273): clear the selected
repository's `github_error` and `github_data` and drop its path from the
in-flight set. -/
def retry_clear (a : App) : App :=
  match a.selected with
  | none => a
  | some idx =>
    match a.repos.get? idx with
    | none => a
    | some r =>
      { a with
        repos := a.repos.set idx { r with github_error := none, github_data := none },
        github_fetching := removePath r.path a.github_fetching }

/-- The `github::invalidate_cached` call of the `ForceRetryGitHub` arm
(src/app.rs lines 263-266), as an effect list. -/
def force_retry_effects (a : App) : List Effect :=
  match a.selected with
  | none => []
  | some idx =>
    match a.repos.get? idx with
    | none => []
    | some r =>
      match r.github_repo with
      | none => []
      | some (owner, nm) => [Effect.InvalidateGithubCache owner nm]

/-- Model of the `find first repo with this path and set its data` loop of
the `GitHubDataReceived` arm (src/app.rs lines 328-333):
`repos.iter_mut().find(|r| r.path == path)` then
`github_data = Some(data); github_error = None`. -/
def set_github_data (path : String) (d : GitHubData) : List RepoInfo → List RepoInfo
  | [] => []
  | r :: rs =>
    if r.path == path then
      { r with github_data := some d, github_error := none } :: rs
    else
      r :: set_github_data path d rs

/-- Model of the `GitHubError` arm (src/app.rs lines 334-338):
`repos.iter_mut().find(|r| r.path == path)` then
`github_error = Some(error)` (note: `github_data` is not touched). -/
def set_github_error (path : String) (e : String) : List RepoInfo → List RepoInfo
  | [] => []
  | r :: rs =>
    if r.path == path then
      { r with github_error := some e } :: rs
    else
      r :: set_github_error path e rs

/-- The point-in-rectangle test used by the `Click` arm
(src/app.rs lines 198-202 and 241-245). -/
def inRect (r : Rect) (column row : Nat) : Bool :=
  decide (r.x ≤ column) && decide (column < r.x + r.width)
    && decide (r.y ≤ row) && decide (row < r.y + r.height)

/-- Model of the `Message::Click` arm of `App::update`
(src/app.rs lines 195-250). -/
def handle_click (a : App) (column row : Nat) : App × List Effect :=
  if inRect a.list_area column row then
    let data_start := a.list_area.y + 2
    if data_start ≤ row then
      let idx := row - data_start
      if idx < a.repos.length then
        maybe_fetch_selected_github
          { a with selected := some idx, detail_scroll := 0,
                   detail_tab := .Changes, active_pane := .RepoList }
      else (a, [])
    else (a, [])
  else if row == a.tab_bar_area.y && a.tab_bar_area.x ≤ column
      && column < a.tab_bar_area.x + a.tab_bar_area.width then
    let rel := column - a.tab_bar_area.x
    let t : DetailTab :=
      if rel < 9 then .Changes
      else if rel < 19 then .Commits
      else if rel < 27 then .Issues
      else .Prs
    ({ a with detail_tab := t, detail_scroll := 0 }, [])
  else
    match a.click_zones.find? (fun z => inRect z.1 column row) with
    | some z => (a, [Effect.OpenUrl z.2])
    | none => (a, [])

/-- Model of `App::update` (src/app.rs lines 122-340).  The `Refresh` /
`ForceRefresh` arms in the detail pane re-enter `update` with
`RetryGitHub` / `ForceRetryGitHub` in the source; here the shared body is
factored through `retry_clear`. -/
def App.update (a : App) : Message → App × List Effect
  | .Quit => ({ a with should_quit := true }, [])
  | .MoveUp =>
    match a.active_pane with
    | .RepoList =>
      if a.repos.isEmpty then (a, [])
      else
        let i := match a.selected with
          | some i => if i == 0 then a.repos.length - 1 else i - 1
          | none => 0
        maybe_fetch_selected_github
          { a with selected := some i, detail_scroll := 0, detail_tab := .Changes }
    | .Detail => ({ a with detail_scroll := a.detail_scroll - 1 }, [])
  | .MoveDown =>
    match a.active_pane with
    | .RepoList =>
      if a.repos.isEmpty then (a, [])
      else
        let i := match a.selected with
          | some i => if a.repos.length - 1 ≤ i then 0 else i + 1
          | none => 0
        maybe_fetch_selected_github
          { a with selected := some i, detail_scroll := 0, detail_tab := .Changes }
    | .Detail => ({ a with detail_scroll := min (a.detail_scroll + 1) 65535 }, [])
  | .SwitchPane =>
    maybe_fetch_selected_github
      { a with
        active_pane := match a.active_pane with
          | .RepoList => ActivePane.Detail
          | .Detail => ActivePane.RepoList,
        detail_scroll := 0 }
  | .FocusList => ({ a with active_pane := .RepoList, detail_scroll := 0 }, [])
  | .NextTab => ({ a with detail_tab := a.detail_tab.next, detail_scroll := 0 }, [])
  | .PrevTab => ({ a with detail_tab := a.detail_tab.prev, detail_scroll := 0 }, [])
  | .Click column row => handle_click a column row
  | .RetryGitHub => maybe_fetch_selected_github (retry_clear a)
  | .ForceRetryGitHub =>
    let r := maybe_fetch_selected_github (retry_clear a)
    (r.1, force_retry_effects a ++ r.2)
  | .Refresh =>
    match a.active_pane with
    | .Detail => maybe_fetch_selected_github (retry_clear a)
    | .RepoList =>
      ({ a with state := .Scanning, repos := [], selected := none, detail_scroll := 0 },
       [Effect.SpawnScan a.scan_path])
  | .ForceRefresh =>
    match a.active_pane with
    | .Detail =>
      let r := maybe_fetch_selected_github (retry_clear a)
      (r.1, force_retry_effects a ++ r.2)
    | .RepoList =>
      ({ a with state := .Scanning, repos := [], selected := none, detail_scroll := 0 },
       [Effect.InvalidateScanCache, Effect.SpawnScan a.scan_path])
  | .Tick => (a, [])
  | .ReposScanned repos =>
    let a1 := { a with repos := repos, state := .Ready, github_fetching := [] }
    (if repos.isEmpty then a1 else { a1 with selected := some 0 }, [])
  | .GitHubDataReceived path d =>
    ({ a with repos := set_github_data path d a.repos }, [])
  | .GitHubError path e =>
    ({ a with repos := set_github_error path e a.repos }, [])

/-- States reachable from a fresh `App` by applying any sequence of
messages. -/
inductive Reachable : App → Prop where
  | init (sp : String) (tok : Option String) : Reachable (App.init sp tok)
  | step (a : App) (m : Message) : Reachable a → Reachable (App.update a m).1

/-- A repository record with both `github_data` and `github_error` set
(the situation the §3 spec invariant says never occurs). -/
def repo_both (r : RepoInfo) : Bool :=
  r.github_data.isSome && r.github_error.isSome

/-- Some repository of the list has both `github_data` and `github_error`
set, as a decidable test over a whole `App`. -/
def both_set (a : App) : Bool :=
  a.repos.any repo_both

/-
GitHub URL parsing (src/repo.rs lines 341-362).  Rust `&str` is modelled
as `List Char`; `strip_prefix` / `strip_suffix` / `splitn(2, sep)` /
`rsplitn(3, sep)` / `contains(substring)` are embedded below.
-/

/-- Rust string slices handled character-wise. -/
abbrev Str := List Char

/-- Model of `str::strip_prefix`: `some` of the remainder when the first
argument is a prefix of the second. -/
def stripPre : Str → Str → Option Str
  | [], s => some s
  | _ :: _, [] => none
  | c :: cs, d :: ds => if c == d then stripPre cs ds else none

/-- Model of `str::strip_suffix`, via `stripPre` on the reversals. -/
def stripSuf (suf s : Str) : Option Str :=
  (stripPre suf.reverse s.reverse).map List.reverse

/-- Model of `str::splitn(2, sep)`: `some (before, after)` split at the
first occurrence of `sep`, `none` when `sep` does not occur (i.e. the Rust
iterator yields a single part). -/
def splitFirst (sep : Char) : Str → Option (Str × Str)
  | [] => none
  | c :: cs =>
    if c == sep then some ([], cs)
    else (splitFirst sep cs).map (fun pr => (c :: pr.1, pr.2))

/-- Model of `str::rsplitn(3, sep).collect::<Vec<_>>()`: the at most three
parts, rightmost first, exactly as the Rust iterator yields them. -/
def rsplit3 (sep : Char) (s : Str) : List Str :=
  match splitFirst sep s.reverse with
  | none => [s]
  | some (a, rest) =>
    match splitFirst sep rest with
    | none => [a.reverse, rest.reverse]
    | some (b, rest2) => [a.reverse, b.reverse, rest2.reverse]

/-- Model of `str::starts_with(needle)` for a whole needle sequence. -/
def isPreSeq : Str → Str → Bool
  | [], _ => true
  | _ :: _, [] => false
  | c :: cs, d :: ds => c == d && isPreSeq cs ds

/-- Model of `str::contains(needle)`: substring containment. -/
def containsSeq (needle : Str) : Str → Bool
  | [] => needle.isEmpty
  | c :: tl => isPreSeq needle (c :: tl) || containsSeq needle tl

/-- The SSH prefix literal of src/repo.rs line 344. -/
def sshPre : Str := "git@github.com:".toList

/-- The `.git` suffix literal of src/repo.rs lines 345 and 354. -/
def dotGit : Str := ".git".toList

/-- The substring literal of src/repo.rs line 353. -/
def ghHost : Str := "github.com".toList

/-- Model of the HTTPS-like branch of `parse_github_url`
(src/repo.rs lines 352-359). -/
def parse_https_like (url : Str) : Option (Str × Str) :=
  if containsSeq ghHost url then
    let u := (stripSuf dotGit url).getD url
    match rsplit3 '/' u with
    | p0 :: p1 :: _ => some (p1, p0)
    | _ => none
  else none

/-- Model of `repo::parse_github_url` (src/repo.rs lines 341-362).  When
the SSH branch strips its prefix but finds no `/`, control falls through
to the HTTPS-like branch on the original input, exactly as in the source. -/
def parse_github_url (url : Str) : Option (Str × Str) :=
  match stripPre sshPre url with
  | some rest =>
    let r := (stripSuf dotGit rest).getD rest
    match splitFirst '/' r with
    | some pr => some pr
    | none => parse_https_like url
  | none => parse_https_like url

/-- The SSH form named by the spec (§6 / §8): `git@github.com:OWNER/REPO.git`. -/
def ssh_format (owner repo : Str) : Str :=
  sshPre ++ owner ++ '/' :: (repo ++ dotGit)

/-- The HTTPS head literal of the spec's HTTPS form. -/
def httpsHead : Str := "https://github.com/".toList

/-- The HTTPS form named by the spec (§6 / §8):
`https://github.com/OWNER/REPO.git`. -/
def https_format (owner repo : Str) : Str :=
  httpsHead ++ owner ++ '/' :: (repo ++ dotGit)

/-
GitHub fetcher count correction (src/github.rs lines 96-103).
-/

/-- Model of the issue-count correction of `GitHubClient::fetch_repo_data`
(src/github.rs line 102): `(total_issues as usize).saturating_sub(total_prs
as usize)`.  Saturating subtraction on unsigned integers is truncated `Nat`
subtraction. -/
def corrected_open_issues (total_issues total_prs : Nat) : Nat :=
  total_issues - total_prs

/-
Directory scanner (src/repo.rs lines 66-143).  The filesystem is a finite
tree of named nodes; `git2::Repository::open` plus metadata extraction
(`analyze_repo`) is external to the scanner and is passed in as an oracle
`an : List String → Option RepoInfo` keyed by the path (list of
components below the scan root), mirroring `analyze_repo(path) ->
Option<RepoInfo>`.
-/

/-- A filesystem node: a file or a directory with its entries. -/
inductive FsNode where
  | file (nm : String)
  | dir (nm : String) (entries : List FsNode)

/-- The base name of a node. -/
def FsNode.fname : FsNode → String
  | .file nm => nm
  | .dir nm _ => nm

/-- Model of `repo::is_git_repo` (src/repo.rs lines 108-111): the
directory has an entry named `.git` (directory or file both count). -/
def is_git_repo : FsNode → Bool
  | .file _ => false
  | .dir _ es => es.any (fun e => e.fname == ".git")

/-- Model of `repo::SKIP_DIRS` (src/repo.rs lines 84-106). -/
def SKIP_DIRS : List String :=
  ["node_modules", "target", "build", "dist", "out", "vendor", "venv",
   ".venv", "__pycache__", "Pods", "DerivedData", ".gradle", ".cargo",
   ".rustup", "Library", "Applications", "Music", "Movies", "Pictures",
   "Photos", ".Trash"]

mutual

/-- Model of `repo::scan_recursive` (src/repo.rs lines 113-143): skip
non-directories, hidden names and `SKIP_DIRS`; push the analysis of every
entry that is a git repo; always recurse into kept entries. -/
def scan_recursive (an : List String → Option RepoInfo)
    (path : List String) : FsNode → List RepoInfo
  | .file _ => []
  | .dir _ es => scan_children an path es

/-- The per-entry loop body of `scan_recursive`, in `read_dir` order. -/
def scan_children (an : List String → Option RepoInfo)
    (path : List String) : List FsNode → List RepoInfo
  | [] => []
  | child :: rest =>
    (match child with
     | .file _ => []
     | .dir nm _ =>
       if nm.startsWith "." || SKIP_DIRS.contains nm then []
       else
         (if is_git_repo child then (an (path ++ [nm])).toList else [])
           ++ scan_recursive an (path ++ [nm]) child)
      ++ scan_children an path rest

end

/-- The comparator of src/repo.rs line 80:
`a.name.to_lowercase().cmp(&b.name.to_lowercase())`, as a strict test used
by a stable insertion sort. -/
def name_lt (a b : RepoInfo) : Bool :=
  decide (a.name.toLower < b.name.toLower)

/-- Stable insertion into a sorted list: the inserted element goes before
every element that does not compare strictly below it, matching the
stability of Rust's `sort_by`. -/
def insert_by_name (r : RepoInfo) : List RepoInfo → List RepoInfo
  | [] => [r]
  | x :: xs => if name_lt x r then x :: insert_by_name r xs else r :: x :: xs

/-- Stable sort by lowercased name, modelling `repos.sort_by(..)`
(src/repo.rs line 80). -/
def sort_by_name : List RepoInfo → List RepoInfo
  | [] => []
  | x :: xs => insert_by_name x (sort_by_name xs)

/-- Model of `repo::scan_directory` (src/repo.rs lines 66-82): if the root
itself is a git repo, return its analysis alone without recursing;
otherwise recurse and sort case-insensitively by name. -/
def scan_directory (an : List String → Option RepoInfo)
    (root : List String) (fs : FsNode) : List RepoInfo :=
  if is_git_repo fs then (an root).toList
  else sort_by_name (scan_recursive an root fs)

/-
Concrete sample states used by the per-claim witnesses and
counterexamples.
-/

/-- A freshly scanned repository with a GitHub remote and no fetch state. -/
def c1_repo : RepoInfo :=
  { name := "r", path := "/r", status := RepoStatus.Clean, current_branch := "main",
    branches := ["main"], remote_url := some "git@github.com:o/n.git",
    github_repo := some ("o", "n"), github_data := none,
    github_error := none, recent_commits := [], changed_files := [] }

/-- A sample fetch result. -/
def c1_data : GitHubData :=
  { open_issues := 1, open_prs := 0, recent_issues := [], recent_prs := [] }

/-- A state whose single repository `/r` is in the in-flight fetch set. -/
def c1_app : App :=
  { (App.update (App.init "/" none) (.ReposScanned [c1_repo])).1 with
    github_fetching := ["/r"] }

/-- The state after scanning one repository, then receiving fetch data for
it, then receiving a (late) fetch error for the same path. -/
def c2_state : App :=
  (App.update
    (App.update
      (App.update (App.init "/" none) (.ReposScanned [c1_repo])).1
      (.GitHubDataReceived "/r" c1_data)).1
    (.GitHubError "/r" "rate limited")).1

/-- A state with one repository that has already received data. -/
def c2_app : App :=
  (App.update
    (App.update (App.init "/" none) (.ReposScanned [c1_repo])).1
    (.GitHubDataReceived "/r" c1_data)).1

/-- A repository without a recognized GitHub remote. -/
def c4_repo : RepoInfo :=
  { name := "r", path := "/r", status := RepoStatus.Clean, current_branch := "main",
    branches := [], remote_url := some "https://gitlab.com/u/r.git",
    github_repo := none, github_data := none,
    github_error := none, recent_commits := [], changed_files := [] }

/-- A state selecting a repository without GitHub coordinates and with no
data, no error and an empty in-flight set. -/
def c4_app : App :=
  (App.update (App.init "/" none) (.ReposScanned [c4_repo])).1

/-- A state used by the dedup witness: one fetchable repository selected. -/
def c4w_app : App :=
  (App.update (App.init "/" none) (.ReposScanned [c1_repo])).1

/-- The analysis result used by the scanner witness. -/
def c6_info : RepoInfo :=
  { name := "root", path := "/root", status := RepoStatus.Clean, current_branch := "main",
    branches := [], remote_url := none, github_repo := none, github_data := none,
    github_error := none, recent_commits := [], changed_files := [] }

/-- A scan root that is itself a repository and contains a nested
repository. -/
def c6_fs : FsNode :=
  .dir "root"
    [.dir ".git" [], .dir "nested" [.dir ".git" [], .file "README.md"]]

/-- The analysis oracle used by the scanner witness. -/
def c6_an : List String → Option RepoInfo :=
  fun _ => some c6_info

/-- A second repository, for navigation tests. -/
def c7_repo : RepoInfo :=
  { name := "s", path := "/s", status := RepoStatus.Clean, current_branch := "main",
    branches := [], remote_url := none, github_repo := none, github_data := none,
    github_error := none, recent_commits := [], changed_files := [] }

/-- A two-repository state with the list pane active and index 0 selected. -/
def c7_app : App :=
  (App.update (App.init "/" none) (.ReposScanned [c4_repo, c7_repo])).1

/-- A two-repository state with the last index selected. -/
def c7_app_last : App :=
  { c7_app with selected := some 1 }

/-- A one-repository state used by the stale-completion witness; its only
repository has path `/r`. -/
def c9_app : App :=
  (App.update (App.init "/" none) (.ReposScanned [c4_repo])).1

/-
Helper lemmas.
-/

/-- The prefetch touches only the in-flight set: every other field of the
resulting state equals the input's. -/
theorem maybe_fetch_shape (a : App) :
    (maybe_fetch_selected_github a).1
      = { a with github_fetching := (maybe_fetch_selected_github a).1.github_fetching } := by
  unfold maybe_fetch_selected_github
  cases selected_repo a with
  | none => rfl
  | some r =>
    dsimp only
    split
    · rfl
    · cases r.github_repo with
      | none => rfl
      | some pr => rfl

theorem maybe_fetch_repos (a : App) :
    (maybe_fetch_selected_github a).1.repos = a.repos := by
  rw [maybe_fetch_shape]

theorem maybe_fetch_sel (a : App) :
    (maybe_fetch_selected_github a).1.selected = a.selected := by
  rw [maybe_fetch_shape]

theorem maybe_fetch_scroll (a : App) :
    (maybe_fetch_selected_github a).1.detail_scroll = a.detail_scroll := by
  rw [maybe_fetch_shape]

theorem maybe_fetch_tab (a : App) :
    (maybe_fetch_selected_github a).1.detail_tab = a.detail_tab := by
  rw [maybe_fetch_shape]

/-- When the selected repository already has data, an error, or is
in-flight, the prefetch does nothing at all. -/
theorem maybe_fetch_skip (a : App) (r : RepoInfo)
    (hsel : selected_repo a = some r)
    (hc : (r.github_data.isSome || r.github_error.isSome
            || a.github_fetching.contains r.path) = true) :
    maybe_fetch_selected_github a = (a, []) := by
  unfold maybe_fetch_selected_github
  rw [hsel]
  dsimp only
  rw [if_pos hc]

/-- A completion message for a path matching no repository leaves the list
untouched (`GitHubDataReceived` arm). -/
theorem set_github_data_nomatch (p : String) (d : GitHubData) :
    ∀ rs : List RepoInfo, (∀ r ∈ rs, r.path ≠ p) → set_github_data p d rs = rs := by
  intro rs
  induction rs with
  | nil => intro _; rfl
  | cons r rs ih =>
    intro h
    unfold set_github_data
    have hr : ¬ r.path = p := h r (List.mem_cons_self r rs)
    simp only [beq_iff_eq, hr, if_false]
    rw [ih (fun x hx => h x (List.mem_cons_of_mem r hx))]

/-- A completion message for a path matching no repository leaves the list
untouched (`GitHubError` arm). -/
theorem set_github_error_nomatch (p e : String) :
    ∀ rs : List RepoInfo, (∀ r ∈ rs, r.path ≠ p) → set_github_error p e rs = rs := by
  intro rs
  induction rs with
  | nil => intro _; rfl
  | cons r rs ih =>
    intro h
    unfold set_github_error
    have hr : ¬ r.path = p := h r (List.mem_cons_self r rs)
    simp only [beq_iff_eq, hr, if_false]
    rw [ih (fun x hx => h x (List.mem_cons_of_mem r hx))]

/-
C5 — issue/PR count correction.
-/

/-- C5: the corrected open-issue count of the GitHub fetcher equals
`max(0, total_issues - total_prs)` over the integers, is 7 for totals
(12, 5), is 0 for totals (3, 5), and is never negative. -/
theorem corrected_open_issues_spec :
    (∀ total_issues total_prs : Nat,
       (corrected_open_issues total_issues total_prs : Int)
         = max 0 ((total_issues : Int) - (total_prs : Int)))
    ∧ corrected_open_issues 12 5 = 7
    ∧ corrected_open_issues 3 5 = 0
    ∧ ∀ total_issues total_prs : Nat,
        0 ≤ (corrected_open_issues total_issues total_prs : Int) := by
  refine ⟨?_, rfl, rfl, ?_⟩
  · intro i p
    unfold corrected_open_issues
    omega
  · intro i p
    exact Int.natCast_nonneg _

/-
C8 — `ReposScanned` transition.
-/

/-- C8: applying `ReposScanned(list)` replaces the repository list with the
received list, clears the in-flight fetch set, selects index 0 when the
received list is non-empty, sets the state to `Ready`, and spawns nothing. -/
theorem repos_scanned_spec (a : App) (l : List RepoInfo) :
    ((App.update a (.ReposScanned l)).1.repos = l
      ∧ (App.update a (.ReposScanned l)).1.github_fetching = []
      ∧ (App.update a (.ReposScanned l)).1.state = AppState.Ready
      ∧ (l ≠ [] → (App.update a (.ReposScanned l)).1.selected = some 0))
    ∧ (App.update a (.ReposScanned l)).2 = [] := by
  unfold App.update
  by_cases h : l.isEmpty
  · rw [List.isEmpty_iff] at h
    subst h
    simp
  · have h' : l ≠ [] := by
      intro hl
      subst hl
      exact h rfl
    rw [List.isEmpty_iff] at h
    simp [h]

/-- Witness for C8 at a concrete non-empty list. -/
theorem repos_scanned_spec_witness :
    [c4_repo] ≠ ([] : List RepoInfo)
    ∧ (App.update (App.init "/" none) (.ReposScanned [c4_repo])).1.selected = some 0 := by
  refine ⟨by decide, ?_⟩
  exact ((repos_scanned_spec (App.init "/" none) [c4_repo]).1.2.2.2 (by decide))

/-
C9 — stale completion messages are no-ops.
-/

/-- C9: a `GitHubDataReceived` or `GitHubError` message whose path matches
no repository of the current list leaves the whole state unchanged and
spawns nothing. -/
theorem stale_completion_noop (a : App) (p : String) (d : GitHubData) (e : String)
    (h : ∀ r ∈ a.repos, r.path ≠ p) :
    App.update a (.GitHubDataReceived p d) = (a, [])
    ∧ App.update a (.GitHubError p e) = (a, []) := by
  constructor
  · have h1 : App.update a (.GitHubDataReceived p d)
        = ({ a with repos := set_github_data p d a.repos }, []) := rfl
    rw [h1, set_github_data_nomatch p d a.repos h]
  · have h2 : App.update a (.GitHubError p e)
        = ({ a with repos := set_github_error p e a.repos }, []) := rfl
    rw [h2, set_github_error_nomatch p e a.repos h]

/-- Witness for C9: the only repository of `c9_app` has path `/r`, so a
completion for the vanished path `/gone` changes nothing. -/
theorem stale_completion_noop_witness :
    App.update c9_app (.GitHubDataReceived "/gone" c1_data) = (c9_app, [])
    ∧ App.update c9_app (.GitHubError "/gone" "boom") = (c9_app, []) :=
  stale_completion_noop c9_app "/gone" c1_data "boom" (by decide)

/-
C10 — a repository without GitHub coordinates never enters the in-flight
set.
-/

/-- C10: when the selected repository has no parsed GitHub coordinates and
neither data nor error, the prefetch launches nothing and leaves the whole
state (in-flight set included) unchanged. -/
theorem no_remote_prefetch_frame (a : App) (r : RepoInfo)
    (hsel : selected_repo a = some r)
    (hrepo : r.github_repo = none)
    (hd : r.github_data = none)
    (he : r.github_error = none) :
    maybe_fetch_selected_github a = (a, []) := by
  unfold maybe_fetch_selected_github
  rw [hsel]
  dsimp only
  rw [hd, he]
  simp only [Option.isSome_none, Bool.false_or]
  by_cases hc : a.github_fetching.contains r.path = true
  · rw [if_pos hc]
  · rw [if_neg hc, hrepo]

/-- Witness for C10 at the concrete state `c4_app`. -/
theorem no_remote_prefetch_frame_witness :
    selected_repo c4_app = some c4_repo
    ∧ c4_repo.github_repo = none
    ∧ maybe_fetch_selected_github c4_app = (c4_app, []) := by
  refine ⟨by decide, by decide, ?_⟩
  exact no_remote_prefetch_frame c4_app c4_repo (by decide) (by decide)
    (by decide) (by decide)

/-
C4 — prefetch skip conditions and deduplication.
-/

/-- C4 (amended): the prefetch launches nothing when the selected
repository has data, has an error, or is in-flight; otherwise, provided it
has parsed GitHub coordinates, the path is added to the in-flight set and
exactly one fetch task is spawned, and a second invocation with no
intervening completion spawns nothing. -/
theorem fetch_dedup :
    (∀ (a : App) (r : RepoInfo), selected_repo a = some r →
       (r.github_data.isSome || r.github_error.isSome
         || a.github_fetching.contains r.path) = true →
       maybe_fetch_selected_github a = (a, []))
    ∧ ∀ (a : App) (r : RepoInfo) (owner nm : String),
        selected_repo a = some r →
        r.github_data = none → r.github_error = none →
        a.github_fetching.contains r.path = false →
        r.github_repo = some (owner, nm) →
        maybe_fetch_selected_github a
          = ({ a with github_fetching := r.path :: a.github_fetching },
             [Effect.SpawnFetch r.path owner nm a.github_token])
        ∧ maybe_fetch_selected_github (maybe_fetch_selected_github a).1
            = ((maybe_fetch_selected_github a).1, []) := by
  refine ⟨maybe_fetch_skip, ?_⟩
  intro a r owner nm hsel hd he hc hr
  have hnc : ¬ (a.github_fetching.contains r.path = true) := by
    rw [hc]
    exact Bool.false_ne_true
  have hmain : maybe_fetch_selected_github a
      = ({ a with github_fetching := r.path :: a.github_fetching },
         [Effect.SpawnFetch r.path owner nm a.github_token]) := by
    unfold maybe_fetch_selected_github
    rw [hsel]
    dsimp only
    rw [hd, he]
    simp only [Option.isSome_none, Bool.false_or]
    rw [if_neg hnc, hr]
    dsimp only
    unfold insertPath
    rw [if_neg hnc]
  refine ⟨hmain, ?_⟩
  rw [hmain]
  apply maybe_fetch_skip _ r
  · exact hsel
  · simp [List.contains_cons]

/-- Counterexample to C4 as stated: the selected repository of `c4_app`
has no data, no error and is not in-flight, yet two consecutive prefetch
invocations add nothing to the in-flight set and launch zero fetch tasks
(not one), because it has no parsed GitHub coordinates. -/
theorem fetch_dedup_counterexample :
    c4_app.repos.map RepoInfo.github_repo = [none]
    ∧ selected_repo c4_app = some c4_repo
    ∧ c4_repo.github_data = none
    ∧ c4_repo.github_error = none
    ∧ c4_app.github_fetching = []
    ∧ maybe_fetch_selected_github c4_app = (c4_app, [])
    ∧ maybe_fetch_selected_github (maybe_fetch_selected_github c4_app).1
        = (c4_app, []) := by
  refine ⟨rfl, rfl, rfl, rfl, rfl, rfl, rfl⟩

/-- Witness for C4: in `c4w_app` the selected repository `/r` is
fetchable; the first prefetch spawns one task and the second spawns none. -/
theorem fetch_dedup_witness :
    (maybe_fetch_selected_github c4w_app).2
      = [Effect.SpawnFetch "/r" "o" "n" none]
    ∧ (maybe_fetch_selected_github (maybe_fetch_selected_github c4w_app).1).2 = [] := by
  have h := fetch_dedup.2 c4w_app c1_repo "o" "n" (by decide) (by decide)
    (by decide) (by decide) (by decide)
  constructor
  · rw [h.1]
    rfl
  · rw [h.2]

/-
C7 — wrap-around navigation.
-/

/-- C7: with the list pane active and a non-empty repository list, `MoveUp`
at index 0 selects the last index and `MoveDown` at the last index selects
index 0; both reset the scroll to 0 and the tab to `Changes` and then run
the selection-driven prefetch. -/
theorem move_wraparound (a : App)
    (hpane : a.active_pane = ActivePane.RepoList)
    (hne : a.repos ≠ []) :
    (a.selected = some 0 →
       App.update a .MoveUp
         = maybe_fetch_selected_github
             { a with selected := some (a.repos.length - 1), detail_scroll := 0,
                      detail_tab := DetailTab.Changes }
       ∧ (App.update a .MoveUp).1.selected = some (a.repos.length - 1)
       ∧ (App.update a .MoveUp).1.detail_scroll = 0
       ∧ (App.update a .MoveUp).1.detail_tab = DetailTab.Changes)
    ∧ (a.selected = some (a.repos.length - 1) →
       App.update a .MoveDown
         = maybe_fetch_selected_github
             { a with selected := some 0, detail_scroll := 0,
                      detail_tab := DetailTab.Changes }
       ∧ (App.update a .MoveDown).1.selected = some 0
       ∧ (App.update a .MoveDown).1.detail_scroll = 0
       ∧ (App.update a .MoveDown).1.detail_tab = DetailTab.Changes) := by
  have hie : ¬ (a.repos.isEmpty = true) := fun hT => hne (List.isEmpty_iff.mp hT)
  constructor
  · intro h0
    have e : App.update a .MoveUp
        = maybe_fetch_selected_github
            { a with selected := some (a.repos.length - 1), detail_scroll := 0,
                     detail_tab := DetailTab.Changes } := by
      unfold App.update
      rw [hpane]
      dsimp only
      rw [if_neg hie, h0]
      rfl
    refine ⟨e, ?_, ?_, ?_⟩
    · rw [e, maybe_fetch_sel]
    · rw [e, maybe_fetch_scroll]
    · rw [e, maybe_fetch_tab]
  · intro h1
    have e : App.update a .MoveDown
        = maybe_fetch_selected_github
            { a with selected := some 0, detail_scroll := 0,
                     detail_tab := DetailTab.Changes } := by
      unfold App.update
      rw [hpane]
      dsimp only
      rw [if_neg hie, h1]
      dsimp only
      rw [if_pos (Nat.le_refl _)]
    refine ⟨e, ?_, ?_, ?_⟩
    · rw [e, maybe_fetch_sel]
    · rw [e, maybe_fetch_scroll]
    · rw [e, maybe_fetch_tab]

/-- Witness for C7 on a concrete two-repository state. -/
theorem move_wraparound_witness :
    c7_app.active_pane = ActivePane.RepoList
    ∧ c7_app.selected = some 0
    ∧ (App.update c7_app .MoveUp).1.selected = some 1
    ∧ (App.update c7_app .MoveUp).1.detail_tab = DetailTab.Changes
    ∧ (App.update c7_app_last .MoveDown).1.selected = some 0 := by
  refine ⟨by decide, by decide, ?_, ?_, ?_⟩
  · exact ((move_wraparound c7_app (by decide) (by decide)).1 (by decide)).2.1
  · exact ((move_wraparound c7_app (by decide) (by decide)).1 (by decide)).2.2.2
  · exact ((move_wraparound c7_app_last (by decide) (by decide)).2 (by decide)).2.1

/-
C1 — in-flight fetch set lifecycle.
-/

/-- The in-flight set never holds the removed path after `removePath`. -/
theorem contains_removePath (p : String) (s : List String) :
    (removePath p s).contains p = false := by
  induction s with
  | nil => rfl
  | cons q qs ih =>
    unfold removePath at ih ⊢
    rw [List.filter_cons]
    by_cases h : q = p
    · rw [if_neg (by simp [h])]
      exact ih
    · rw [if_pos (by simp [h]), List.contains_cons, ih]
      simp [Ne.symm h]

/-- C1 (amended): the in-flight set is cleared wholesale by
`ReposScanned`; completion messages (`GitHubDataReceived`, `GitHubError`)
leave it unchanged; `RetryGitHub` / `ForceRetryGitHub` remove the selected
repository's path before re-invoking the prefetch (which may re-add it). -/
theorem fetch_set_lifecycle :
    (∀ (a : App) (l : List RepoInfo),
        (App.update a (.ReposScanned l)).1.github_fetching = [])
    ∧ (∀ (a : App) (p : String) (d : GitHubData),
        (App.update a (.GitHubDataReceived p d)).1.github_fetching
          = a.github_fetching)
    ∧ (∀ (a : App) (p e : String),
        (App.update a (.GitHubError p e)).1.github_fetching = a.github_fetching)
    ∧ ∀ (a : App) (idx : Nat) (r : RepoInfo),
        a.selected = some idx → a.repos.get? idx = some r →
        (retry_clear a).github_fetching.contains r.path = false
        ∧ App.update a .RetryGitHub
            = maybe_fetch_selected_github (retry_clear a)
        ∧ (App.update a .ForceRetryGitHub).1
            = (maybe_fetch_selected_github (retry_clear a)).1 := by
  refine ⟨?_, fun a p d => rfl, fun a p e => rfl, ?_⟩
  · intro a l
    unfold App.update
    dsimp only
    split <;> rfl
  · intro a idx r hs hg
    have hrc : (retry_clear a).github_fetching = removePath r.path a.github_fetching := by
      unfold retry_clear
      rw [hs]
      dsimp only
      rw [hg]
    refine ⟨?_, rfl, rfl⟩
    rw [hrc]
    exact contains_removePath r.path a.github_fetching

/-- Counterexample to C1 as stated: in `c1_app` the path `/r` of its only
repository is in the in-flight set, and applying either completion message
for `/r` leaves it in the set (it is not removed). -/
theorem completion_keeps_inflight :
    c1_app.repos = [c1_repo]
    ∧ c1_repo.path = "/r"
    ∧ c1_app.github_fetching = ["/r"]
    ∧ (App.update c1_app (.GitHubDataReceived "/r" c1_data)).1.github_fetching = ["/r"]
    ∧ (App.update c1_app (.GitHubError "/r" "boom")).1.github_fetching = ["/r"] := by
  refine ⟨rfl, rfl, rfl, rfl, rfl⟩

/-- Witness for C1 on a concrete state: retrying the selected repository
first removes its path from the in-flight set. -/
theorem fetch_set_lifecycle_witness :
    c1_app.selected = some 0
    ∧ c1_app.repos.get? 0 = some c1_repo
    ∧ (retry_clear c1_app).github_fetching.contains "/r" = false := by
  refine ⟨by decide, by decide, ?_⟩
  exact (fetch_set_lifecycle.2.2.2 c1_app 0 c1_repo (by decide) (by decide)).1

/-
C2 — mutual exclusion of `github_data` and `github_error`.
-/

/-- Replacing one list element whose test is false cannot make `any`
true. -/
theorem any_set_false {α : Type} (q : α → Bool) :
    ∀ (rs : List α) (i : Nat) (x : α),
      rs.any q = false → q x = false → (rs.set i x).any q = false := by
  intro rs i x h hx
  rw [List.any_eq_false] at h ⊢
  intro y hy
  rcases List.mem_or_eq_of_mem_set hy with hmem | heq
  · exact h y hmem
  · rw [heq, hx]
    exact Bool.false_ne_true

/-- The `GitHubDataReceived` write (data set, error cleared) cannot create
a repository with both fields set. -/
theorem any_both_set_data (p : String) (d : GitHubData) :
    ∀ rs : List RepoInfo, rs.any repo_both = false →
      (set_github_data p d rs).any repo_both = false := by
  intro rs
  induction rs with
  | nil => intro _; rfl
  | cons r rs ih =>
    intro h
    rw [List.any_cons, Bool.or_eq_false_iff] at h
    unfold set_github_data
    by_cases hp : (r.path == p) = true
    · rw [if_pos hp, List.any_cons, h.2]
      rfl
    · rw [if_neg hp, List.any_cons, h.1, ih h.2]
      rfl

/-- The `GitHubError` write cannot create a repository with both fields
set, provided no repository at the written path currently holds data. -/
theorem any_both_set_error (p e : String) :
    ∀ rs : List RepoInfo,
      (∀ r ∈ rs, r.path = p → r.github_data = none) →
      rs.any repo_both = false →
      (set_github_error p e rs).any repo_both = false := by
  intro rs
  induction rs with
  | nil => intro _ _; rfl
  | cons r rs ih =>
    intro hpath h
    rw [List.any_cons, Bool.or_eq_false_iff] at h
    unfold set_github_error
    by_cases hp : (r.path == p) = true
    · rw [if_pos hp, List.any_cons, h.2]
      have hd : r.github_data = none :=
        hpath r (List.mem_cons_self r rs) (beq_iff_eq.mp hp)
      have : repo_both { r with github_error := some e } = false := by
        unfold repo_both
        dsimp only
        rw [hd]
        rfl
      rw [this]
      rfl
    · rw [if_neg hp, List.any_cons, h.1,
        ih (fun x hx => hpath x (List.mem_cons_of_mem r hx)) h.2]
      rfl

/-- The retry clearing step cannot create a repository with both fields
set. -/
theorem retry_clear_both (a : App) :
    both_set a = false → both_set (retry_clear a) = false := by
  intro h
  unfold retry_clear
  cases hs : a.selected with
  | none => exact h
  | some idx =>
    dsimp only
    cases hg : a.repos.get? idx with
    | none => exact h
    | some r =>
      dsimp only
      unfold both_set at h ⊢
      exact any_set_false repo_both a.repos idx _ h rfl

/-- `MoveUp` never changes the repository list. -/
theorem update_repos_moveup (a : App) :
    (App.update a .MoveUp).1.repos = a.repos := by
  unfold App.update
  cases hp : a.active_pane with
  | RepoList =>
    dsimp only
    split
    · rfl
    · rw [maybe_fetch_repos]
  | Detail => rfl

/-- `MoveDown` never changes the repository list. -/
theorem update_repos_movedown (a : App) :
    (App.update a .MoveDown).1.repos = a.repos := by
  unfold App.update
  cases hp : a.active_pane with
  | RepoList =>
    dsimp only
    split
    · rfl
    · rw [maybe_fetch_repos]
  | Detail => rfl

/-- `Click` never changes the repository list. -/
theorem handle_click_repos (a : App) (column row : Nat) :
    (handle_click a column row).1.repos = a.repos := by
  unfold handle_click
  split
  · dsimp only
    split
    · split
      · rw [maybe_fetch_repos]
      · rfl
    · rfl
  · split
    · rfl
    · split <;> rfl

/-- Writing the head of the found-by-path repository: when the prefix of
the list contains no repository at the path, exactly the first match is
rewritten by `GitHubDataReceived`. -/
theorem set_github_data_first (p : String) (d : GitHubData) :
    ∀ (pre : List RepoInfo) (r : RepoInfo) (rest : List RepoInfo),
      (∀ r2 ∈ pre, r2.path ≠ p) → r.path = p →
      set_github_data p d (pre ++ r :: rest)
        = pre ++ { r with github_data := some d, github_error := none } :: rest := by
  intro pre
  induction pre with
  | nil =>
    intro r rest _ hr
    rw [List.nil_append, List.nil_append]
    unfold set_github_data
    rw [if_pos (beq_iff_eq.mpr hr)]
  | cons q qs ih =>
    intro r rest hpre hr
    rw [List.cons_append, List.cons_append]
    unfold set_github_data
    rw [if_neg (by simpa using hpre q (List.mem_cons_self q qs))]
    rw [ih r rest (fun x hx => hpre x (List.mem_cons_of_mem q hx)) hr]

/-- C2 (amended): a fresh state has no repository with both fields set,
and this is preserved by every message except a `GitHubError` landing on a
repository that already holds data (the `GitHubError` arm does not clear
`github_data`) or a `ReposScanned` payload already containing a both-set
entry; moreover `GitHubDataReceived` sets the matched repository's
`github_data` and clears its `github_error`. -/
theorem no_both_preserved :
    (∀ (sp : String) (tok : Option String), both_set (App.init sp tok) = false)
    ∧ (∀ (a : App) (m : Message), both_set a = false →
        (∀ p e, m = .GitHubError p e →
          ∀ r ∈ a.repos, r.path = p → r.github_data = none) →
        (∀ l, m = .ReposScanned l → ∀ r ∈ l, repo_both r = false) →
        both_set (App.update a m).1 = false)
    ∧ ∀ (a : App) (p : String) (d : GitHubData) (pre : List RepoInfo)
        (r : RepoInfo) (rest : List RepoInfo),
        a.repos = pre ++ r :: rest → (∀ r2 ∈ pre, r2.path ≠ p) → r.path = p →
        (App.update a (.GitHubDataReceived p d)).1.repos
          = pre ++ { r with github_data := some d, github_error := none } :: rest := by
  refine ⟨fun sp tok => rfl, ?_, ?_⟩
  · intro a m h hgErr hScan
    cases m with
    | Quit => exact h
    | Tick => exact h
    | FocusList => exact h
    | NextTab => exact h
    | PrevTab => exact h
    | MoveUp =>
      unfold both_set at h ⊢
      rw [update_repos_moveup]
      exact h
    | MoveDown =>
      unfold both_set at h ⊢
      rw [update_repos_movedown]
      exact h
    | SwitchPane =>
      have e : (App.update a .SwitchPane).1.repos = a.repos := maybe_fetch_repos _
      unfold both_set at h ⊢
      rw [e]
      exact h
    | Click column row =>
      have e : (App.update a (.Click column row)).1.repos = a.repos :=
        handle_click_repos a column row
      unfold both_set at h ⊢
      rw [e]
      exact h
    | RetryGitHub =>
      have e : (App.update a .RetryGitHub).1.repos = (retry_clear a).repos :=
        maybe_fetch_repos _
      unfold both_set at h ⊢
      rw [e]
      exact retry_clear_both a h
    | ForceRetryGitHub =>
      have e : (App.update a .ForceRetryGitHub).1.repos = (retry_clear a).repos :=
        maybe_fetch_repos _
      unfold both_set at h ⊢
      rw [e]
      exact retry_clear_both a h
    | Refresh =>
      unfold App.update
      cases hp : a.active_pane with
      | Detail =>
        have e : (maybe_fetch_selected_github (retry_clear a)).1.repos
            = (retry_clear a).repos := maybe_fetch_repos _
        unfold both_set at h ⊢
        rw [e]
        exact retry_clear_both a h
      | RepoList => rfl
    | ForceRefresh =>
      unfold App.update
      cases hp : a.active_pane with
      | Detail =>
        have e : (maybe_fetch_selected_github (retry_clear a)).1.repos
            = (retry_clear a).repos := maybe_fetch_repos _
        unfold both_set at h ⊢
        rw [e]
        exact retry_clear_both a h
      | RepoList => rfl
    | ReposScanned l =>
      have e : (App.update a (.ReposScanned l)).1.repos = l := by
        unfold App.update
        dsimp only
        split <;> rfl
      unfold both_set
      rw [e, List.any_eq_false]
      intro r hr
      rw [hScan l rfl r hr]
      exact Bool.false_ne_true
    | GitHubDataReceived p d =>
      unfold both_set at h ⊢
      exact any_both_set_data p d a.repos h
    | GitHubError p e2 =>
      unfold both_set at h ⊢
      exact any_both_set_error p e2 a.repos (hgErr p e2 rfl) h
  · intro a p d pre r rest ha hpre hr
    have e : (App.update a (.GitHubDataReceived p d)).1.repos
        = set_github_data p d a.repos := rfl
    rw [e, ha]
    exact set_github_data_first p d pre r rest hpre hr

/-- Counterexample to C2 as stated: `c2_state` is reachable (scan one
repository, receive its data, then receive a late error for the same
path), and its repository holds both `github_data` and `github_error`,
because the `GitHubError` arm does not clear `github_data`. -/
theorem both_set_reachable :
    Reachable c2_state
    ∧ both_set c2_state = true
    ∧ c2_state.repos.map RepoInfo.github_error = [some "rate limited"]
    ∧ c2_state.repos.map (fun r => r.github_data) = [some c1_data] := by
  refine ⟨?_, rfl, rfl, rfl⟩
  exact Reachable.step _ _ (Reachable.step _ _ (Reachable.step _ _
    (Reachable.init "/" none)))

/-- Witness for C2: the preservation part applied to a concrete state and
a concrete `GitHubError` whose target repository holds no data. -/
theorem no_both_preserved_witness :
    both_set c9_app = false
    ∧ both_set (App.update c9_app (.GitHubError "/r" "boom")).1 = false := by
  refine ⟨rfl, ?_⟩
  apply no_both_preserved.2.1 c9_app (.GitHubError "/r" "boom") rfl
  · intro p e hm r hr hp
    cases hm
    have e2 : c9_app.repos = [c4_repo] := rfl
    rw [e2] at hr
    have : r = c4_repo := by simpa using hr
    rw [this]
    rfl
  · intro l hm
    cases hm

/-
C6 — top-level short-circuit of the scanner.
-/

/-- C6: when the scan root itself is a repository (has a `.git` entry) and
its analysis succeeds, `scan_directory` returns exactly that one entry and
never recurses — even when the root contains nested repositories. -/
theorem scan_root_short_circuit (an : List String → Option RepoInfo)
    (root : List String) (fs : FsNode) (info : RepoInfo)
    (h1 : is_git_repo fs = true) (h2 : an root = some info) :
    scan_directory an root fs = [info] := by
  unfold scan_directory
  rw [if_pos h1, h2]
  rfl

/-- Witness for C6: a root with a `.git` entry and a nested repository
inside still scans to exactly one entry. -/
theorem scan_root_short_circuit_witness :
    is_git_repo c6_fs = true
    ∧ c6_an [] = some c6_info
    ∧ scan_directory c6_an [] c6_fs = [c6_info] := by
  refine ⟨by decide, rfl, ?_⟩
  exact scan_root_short_circuit c6_an [] c6_fs c6_info (by decide) rfl

/-
C3 — GitHub URL parsing.
-/

/-- Stripping a prefix off itself followed by anything succeeds. -/
theorem stripPre_append : ∀ p s : Str, stripPre p (p ++ s) = some s := by
  intro p
  induction p with
  | nil => intro s; rfl
  | cons c cs ih =>
    intro s
    rw [List.cons_append]
    unfold stripPre
    rw [if_pos (beq_self_eq_true c)]
    exact ih s

/-- A successful prefix strip decomposes the input. -/
theorem stripPre_eq_some :
    ∀ (p s r : Str), stripPre p s = some r → s = p ++ r := by
  intro p
  induction p with
  | nil =>
    intro s r h
    cases h
    rfl
  | cons c cs ih =>
    intro s r h
    cases s with
    | nil => cases h
    | cons d ds =>
      unfold stripPre at h
      by_cases hb : (c == d) = true
      · rw [if_pos hb] at h
        have hcd : c = d := beq_iff_eq.mp hb
        rw [List.cons_append, ← hcd, ih ds r h]
      · rw [if_neg hb] at h
        cases h

/-- Stripping a suffix off anything followed by itself succeeds. -/
theorem stripSuf_append (suf s : Str) : stripSuf suf (s ++ suf) = some s := by
  unfold stripSuf
  rw [List.reverse_append, stripPre_append]
  dsimp only [Option.map]
  rw [List.reverse_reverse]

/-- Splitting at the first separator occurrence, when the head part does
not contain it. -/
theorem splitFirst_not_mem (sep : Char) :
    ∀ (a b : Str), sep ∉ a → splitFirst sep (a ++ sep :: b) = some (a, b) := by
  intro a
  induction a with
  | nil =>
    intro b _
    rw [List.nil_append]
    unfold splitFirst
    rw [if_pos (beq_self_eq_true sep)]
  | cons c cs ih =>
    intro b hmem
    rw [List.cons_append]
    unfold splitFirst
    have hc : ¬ ((c == sep) = true) := by
      simp only [beq_iff_eq]
      intro hcs
      exact hmem (hcs ▸ List.mem_cons_self c cs)
    rw [if_neg hc, ih b (fun hx => hmem (List.mem_cons_of_mem c hx))]
    rfl

/-- A sequence prefix stays a prefix under extension on the right. -/
theorem isPreSeq_append :
    ∀ (n s r : Str), isPreSeq n s = true → isPreSeq n (s ++ r) = true := by
  intro n
  induction n with
  | nil => intro s r _; rfl
  | cons c cs ih =>
    intro s r h
    cases s with
    | nil => cases h
    | cons d ds =>
      unfold isPreSeq at h
      rw [Bool.and_eq_true] at h
      rw [List.cons_append]
      unfold isPreSeq
      rw [h.1, ih ds r h.2]
      rfl

/-- The empty needle is contained everywhere. -/
theorem containsSeq_nil : ∀ s : Str, containsSeq [] s = true := by
  intro s
  cases s <;> rfl

/-- Substring containment is preserved by extending the haystack on the
right. -/
theorem containsSeq_append_right :
    ∀ (p r n : Str), containsSeq n p = true → containsSeq n (p ++ r) = true := by
  intro p
  induction p with
  | nil =>
    intro r n h
    have : n = [] := List.isEmpty_iff.mp h
    rw [this, List.nil_append]
    exact containsSeq_nil r
  | cons c tl ih =>
    intro r n h
    unfold containsSeq at h
    rw [Bool.or_eq_true] at h
    rw [List.cons_append]
    unfold containsSeq
    rcases h with h1 | h2
    · rw [← List.cons_append, isPreSeq_append n (c :: tl) r h1]
      rfl
    · rw [ih r n h2, Bool.or_true]

/-- C3 (amended): for owner and repo components containing no `/`, parsing
the SSH form `git@github.com:owner/repo.git` and the HTTPS form
`https://github.com/owner/repo.git` both return `(owner, repo)` with the
`.git` suffix stripped; and any input not containing the substring
`github.com` parses to nothing.  (The source checks for the substring
`github.com` anywhere, not for the URL host, so a non-github.com host may
still parse — see the counterexample.) -/
theorem parse_github_url_roundtrip :
    (∀ owner repo : Str, '/' ∉ owner → '/' ∉ repo →
       parse_github_url (ssh_format owner repo) = some (owner, repo)
       ∧ parse_github_url (https_format owner repo) = some (owner, repo))
    ∧ ∀ url : Str, containsSeq ghHost url = false → parse_github_url url = none := by
  constructor
  · intro owner repo how hrw
    constructor
    · unfold parse_github_url
      have e1 : stripPre sshPre (ssh_format owner repo)
          = some (owner ++ '/' :: (repo ++ dotGit)) := by
        unfold ssh_format
        rw [List.append_assoc]
        exact stripPre_append sshPre _
      rw [e1]
      dsimp only
      have e2 : owner ++ '/' :: (repo ++ dotGit) = (owner ++ '/' :: repo) ++ dotGit := by
        rw [List.append_assoc, List.cons_append]
      rw [e2, stripSuf_append]
      dsimp only [Option.getD]
      rw [splitFirst_not_mem '/' owner repo how]
    · unfold parse_github_url
      have e0 : stripPre sshPre (https_format owner repo) = none := by
        have eh : https_format owner repo
            = 'h' :: ("ttps://github.com/".toList ++ (owner ++ '/' :: (repo ++ dotGit))) := by
          unfold https_format httpsHead
          rw [List.append_assoc]
          rfl
        rw [eh]
        have es : sshPre = 'g' :: "it@github.com:".toList := rfl
        rw [es]
        unfold stripPre
        rw [if_neg (by decide)]
      rw [e0]
      unfold parse_https_like
      have hc : containsSeq ghHost (https_format owner repo) = true := by
        have eform : https_format owner repo
            = httpsHead ++ (owner ++ '/' :: (repo ++ dotGit)) := by
          unfold https_format
          exact List.append_assoc _ _ _
        rw [eform]
        exact containsSeq_append_right httpsHead _ ghHost (by decide)
      rw [if_pos hc]
      have e2 : https_format owner repo
          = (httpsHead ++ owner ++ '/' :: repo) ++ dotGit := by
        unfold https_format
        simp [List.append_assoc]
      rw [e2, stripSuf_append]
      dsimp only [Option.getD]
      unfold rsplit3
      have e3 : (httpsHead ++ owner ++ '/' :: repo).reverse
          = repo.reverse ++ '/' :: (owner.reverse ++ httpsHead.reverse) := by
        simp [List.reverse_append, List.append_assoc]
      rw [e3, splitFirst_not_mem '/' repo.reverse _ (by simpa using hrw)]
      dsimp only
      have e4 : httpsHead.reverse = '/' :: "https://github.com".toList.reverse := by
        rfl
      rw [e4, splitFirst_not_mem '/' owner.reverse _ (by simpa using how)]
      dsimp only
      simp [List.reverse_reverse]
  · intro url hc
    cases he : stripPre sshPre url with
    | none =>
      unfold parse_github_url
      rw [he]
      unfold parse_https_like
      rw [if_neg (by rw [hc]; exact Bool.false_ne_true)]
    | some rest =>
      exfalso
      have hu : url = sshPre ++ rest := stripPre_eq_some sshPre url rest he
      have h2 : containsSeq ghHost url = true := by
        rw [hu]
        exact containsSeq_append_right sshPre rest ghHost (by decide)
      rw [hc] at h2
      exact Bool.false_ne_true h2

/-- Counterexample to C3 as stated: a URL whose host is `evil.example`
(not `github.com`) still parses to `some`, because the source only checks
for the substring `github.com` anywhere in the URL; and the round trip
fails for an owner containing `/`. -/
theorem parse_github_url_counterexample :
    parse_github_url "https://evil.example/github.com/a/b".toList
        = some ("a".toList, "b".toList)
    ∧ ssh_format "a/b".toList "c".toList = "git@github.com:a/b/c.git".toList
    ∧ parse_github_url (ssh_format "a/b".toList "c".toList)
        = some ("a".toList, "b/c".toList) := by
  refine ⟨rfl, rfl, rfl⟩

/-- Witness for C3 at the concrete pair `(user, repo)` and a non-GitHub
URL. -/
theorem parse_github_url_roundtrip_witness :
    parse_github_url (ssh_format "user".toList "repo".toList)
        = some ("user".toList, "repo".toList)
    ∧ parse_github_url (https_format "user".toList "repo".toList)
        = some ("user".toList, "repo".toList)
    ∧ parse_github_url "https://gitlab.com/user/repo.git".toList = none := by
  refine ⟨?_, ?_, ?_⟩
  · exact (parse_github_url_roundtrip.1 "user".toList "repo".toList
      (by decide) (by decide)).1
  · exact (parse_github_url_roundtrip.1 "user".toList "repo".toList
      (by decide) (by decide)).2
  · exact parse_github_url_roundtrip.2 _ (by decide)

end ProjectDash
